import Mathlib

/-!
Shallow embedding of the Virtual Garbage Collector (VGC) of
src/VGC_simulation.cpp: the object descriptor, the liveness evaluator,
the heap registry (an association list standing for the C++
std unordered_map, whose keys are unique), the allocation and
state-transition APIs, and the sweep engine with pre- and post-sweep
hooks.

Machine integers (uint8_t, uint32_t, size_t) are embedded as Nat: none
of the modelled operations can overflow (states and zones are small
enum values, ids are map keys, counts are list lengths), and the
bitwise operators of the liveness equation agree with the Nat bitwise
operators on these ranges.

Diagnostics: the C++ code writes warnings and errors to cerr; that
channel is modelled as a list of Diag values returned next to the new
heap.  The purely informational cout output is not modelled.

Pre-sweep hooks are C++ function<void()> values.  The claims assume
hooks do not mutate the heap, so the only effect a pre-hook can have on
the sweep is to fail (throw); sweep contains no try/catch, hence in C++
a hook failure propagates out of sweep.  A registered pre-hook is
therefore modelled by its outcome, a value of Except Unit Unit, and
sweep runs in the Except monad.  Post-sweep hooks receive the reclaimed
count; the argument passed to each registered post-hook, in
registration order, is recorded in the postCalls field of the sweep
result.
-/

namespace VGC

/-- Object descriptor: struct VGC_Object with fields id, zone_mask, state. -/
structure VGC_Object where
  id : Nat
  zone_mask : Nat
  state : Nat
deriving DecidableEq, Repr

/-- VGC_State numeric encodings (enum class VGC_State). -/
def IDLE : Nat := 0
def ACTIVE : Nat := 1
def PROMOTE : Nat := 2
def DEMOTE : Nat := 3
def PERSIST : Nat := 4
def DEFERRED : Nat := 5
def MARKED : Nat := 6
def EXPIRED : Nat := 7

/-- MemoryZone numeric encodings (enum class MemoryZone). -/
def RED : Nat := 1
def GREEN : Nat := 2
def BLUE : Nat := 4

/-- VGC_Manager::evaluate_liveness, translated line by line:
EXPIRED objects are never alive, PERSIST objects always are, otherwise
the score (state AND zone_mask) OR (state AND pending_ops) decides,
with an override for ACTIVE. -/
def evaluate_liveness (obj : VGC_Object) (pending_mask : Nat) : Bool :=
  let current_state := obj.state
  let zone_mask := obj.zone_mask
  let pending_ops := pending_mask
  if current_state = EXPIRED then
    false
  else if current_state = PERSIST then
    true
  else
    let liveness_score := (current_state &&& zone_mask) ||| (current_state &&& pending_ops)
    decide (liveness_score > 0) || decide (current_state = ACTIVE)

/-- The heap of VGC_Manager: unordered_map from uint32_t id to
VGC_Object, embedded as an association list with unique keys (the
uniqueness is stated as a hypothesis where a theorem needs it). -/
abbrev Heap := List (Nat × VGC_Object)

/-- heap.count(id) != 0: does the map hold key id. -/
def heapContains (h : Heap) (id : Nat) : Bool :=
  h.any (fun e => e.1 == id)

/-- heap.find(id), returning the mapped object when the key is present. -/
def heapFind (h : Heap) (id : Nat) : Option VGC_Object :=
  (h.find? (fun e => e.1 == id)).map Prod.snd

/-- heap.erase(id): remove the entry with key id. -/
def heapErase (h : Heap) (id : Nat) : Heap :=
  h.filter (fun e => !(e.1 == id))

/-- The C++ map write heap[id] = obj: overwrite the entry when the key
is present, insert a new entry otherwise. -/
def heapStore (h : Heap) (id : Nat) (obj : VGC_Object) : Heap :=
  if heapContains h id then
    h.map (fun e => if e.1 == id then (id, obj) else e)
  else
    h ++ [(id, obj)]

/-- The diagnostics the manager writes to cerr: a duplicate-allocation
warning and a transition-on-unknown-id error. -/
inductive Diag where
  | warnDuplicate (id : Nat)
  | errNotFound (id : Nat)
deriving DecidableEq, Repr

/-- VGC_Manager::allocate: warn on an existing id, then store a fresh
descriptor built from the arguments. -/
def allocate (h : Heap) (id zone initial_state : Nat) : Heap × List Diag :=
  let diags := if heapContains h id then [Diag.warnDuplicate id] else []
  let new_object : VGC_Object := { id := id, zone_mask := zone, state := initial_state }
  (heapStore h id new_object, diags)

/-- VGC_Manager::transition_state: if the id is present set the
state of that descriptor to new_state, otherwise report an error and leave
the heap untouched. -/
def transition_state (h : Heap) (id new_state : Nat) : Heap × List Diag :=
  if heapContains h id then
    (h.map (fun e => if e.1 == id then (e.1, { e.2 with state := new_state }) else e), [])
  else
    (h, [Diag.errNotFound id])

/-- VGC_Manager::object_count: heap.size(). -/
def object_count (h : Heap) : Nat :=
  h.length

/-- Run the registered pre-sweep callbacks in registration order; a
failure propagates (there is no try/catch in sweep). -/
def runPreHooks : List (Except Unit Unit) → Except Unit Unit
  | [] => Except.ok ()
  | cb :: rest => do
      let _ ← cb
      runPreHooks rest

/-- The reclamation loop of sweep: erase each candidate id in turn. -/
def reclaimAll : Heap → List Nat → Heap
  | h, [] => h
  | h, id :: rest => reclaimAll (heapErase h id) rest

/-- Observable outcome of a successful sweep: the heap afterwards, and
the argument passed to each registered post-sweep callback, in
registration order. -/
structure SweepResult where
  heap : Heap
  postCalls : List Nat
deriving DecidableEq, Repr

/-- VGC_Manager::sweep: run the pre-hooks, snapshot the ids of the
descriptors that fail liveness under pending_mask, erase them, then
call each of the nPost registered post-hooks with the reclaimed count. -/
def sweep (pre : List (Except Unit Unit)) (nPost : Nat) (h : Heap) (pending_mask : Nat) :
    Except Unit SweepResult :=
  match runPreHooks pre with
  | Except.error e => Except.error e
  | Except.ok _ =>
      let objects_to_reclaim :=
        (h.filter (fun e => !evaluate_liveness e.2 pending_mask)).map Prod.fst
      Except.ok
        { heap := reclaimAll h objects_to_reclaim
          postCalls := List.replicate nPost objects_to_reclaim.length }

/-- The heap built by phase 1 of the demonstration in main(). -/
def demoHeap : Heap :=
  [(101, { id := 101, zone_mask := GREEN, state := ACTIVE }),
   (102, { id := 102, zone_mask := RED, state := MARKED }),
   (103, { id := 103, zone_mask := BLUE, state := PERSIST }),
   (104, { id := 104, zone_mask := GREEN, state := IDLE }),
   (105, { id := 105, zone_mask := RED, state := ACTIVE })]

/-- demoHeap after sweep(0): objects 102 (MARKED in RED) and 104 (IDLE)
are reclaimed. -/
def demoAfter : Heap :=
  [(101, { id := 101, zone_mask := GREEN, state := ACTIVE }),
   (103, { id := 103, zone_mask := BLUE, state := PERSIST }),
   (105, { id := 105, zone_mask := RED, state := ACTIVE })]

/-! Helper lemmas -/

/-- Bits of the second operand of a bitwise AND above the width of a
3-bit first operand never matter. -/
lemma land_mask3 (s p : Nat) (hs : s < 8) : s &&& p = s &&& (p &&& 7) := by
  apply Nat.eq_of_testBit_eq
  intro i
  simp only [Nat.testBit_land]
  rcases Nat.lt_or_ge i 3 with hi | hi
  · have h7 : Nat.testBit 7 i = true := by interval_cases i <;> rfl
    rw [h7, Bool.and_true]
  · have hsi : Nat.testBit s i = false := by
      apply Nat.testBit_eq_false_of_lt
      calc s < 8 := hs
        _ = 2 ^ 3 := by norm_num
        _ ≤ 2 ^ i := Nat.pow_le_pow_right (by norm_num) hi
    rw [hsi, Bool.false_and, Bool.false_and]

/-- Splitting a heap by a Bool predicate splits its length. -/
lemma length_filter_add_length_filter_not (q : Nat × VGC_Object → Bool) (h : Heap) :
    (h.filter q).length + (h.filter (fun e => !q e)).length = h.length := by
  induction h with
  | nil => rfl
  | cons e t ih => cases hq : q e <;> simp [List.filter_cons, hq] <;> omega

/-- Erasing a list of keys one by one filters out exactly the entries
whose key lies in that list. -/
lemma reclaimAll_eq_filter_not_mem (ids : List Nat) (h : Heap) :
    reclaimAll h ids = h.filter (fun e => !(decide (e.1 ∈ ids))) := by
  induction ids generalizing h with
  | nil => simp [reclaimAll]
  | cons i rest ih =>
      rw [reclaimAll, ih, heapErase, List.filter_filter]
      apply List.filter_congr
      intro e _
      rcases Decidable.em (e.1 = i) with h1 | h1 <;>
        rcases Decidable.em (e.1 ∈ rest) with h2 | h2 <;>
          simp [h1, h2]

/-- Under unique keys, the key of an entry appears among the keys of the
entries failing a predicate exactly when the entry itself fails it. -/
lemma mem_filter_not_map_fst_iff (q : Nat × VGC_Object → Bool) (h : Heap)
    (hnd : (h.map Prod.fst).Nodup) (e : Nat × VGC_Object) (he : e ∈ h) :
    (e.1 ∈ (h.filter (fun x => !q x)).map Prod.fst) ↔ q e = false := by
  constructor
  · intro hm
    rw [List.mem_map] at hm
    obtain ⟨x, hx, hfst⟩ := hm
    rw [List.mem_filter] at hx
    have hxe : x = e := List.inj_on_of_nodup_map hnd hx.1 he hfst
    rw [hxe] at hx
    simpa using hx.2
  · intro hq
    rw [List.mem_map]
    exact ⟨e, List.mem_filter.mpr ⟨he, by simp [hq]⟩, rfl⟩

/-- The reclamation loop of sweep, run on the snapshot of not-alive
ids, leaves exactly the alive entries (keys being unique). -/
lemma reclaim_dead_eq_filter (p : Nat) (h : Heap) (hnd : (h.map Prod.fst).Nodup) :
    reclaimAll h ((h.filter (fun e => !evaluate_liveness e.2 p)).map Prod.fst) =
      h.filter (fun e => evaluate_liveness e.2 p) := by
  rw [reclaimAll_eq_filter_not_mem]
  apply List.filter_congr
  intro e he
  have hm : e.1 ∈ (h.filter (fun x => !evaluate_liveness x.2 p)).map Prod.fst ↔
      evaluate_liveness e.2 p = false :=
    mem_filter_not_map_fst_iff (fun x => evaluate_liveness x.2 p) h hnd e he
  cases hq : evaluate_liveness e.2 p
  · rw [hq] at hm
    simp [hm.mpr rfl]
  · rw [hq] at hm
    have hnm : ¬ e.1 ∈ (h.filter (fun x => !evaluate_liveness x.2 p)).map Prod.fst :=
      fun hmem => Bool.noConfusion (hm.mp hmem)
    simp [hnm]

/-- A successful sweep ran all its pre-hooks successfully. -/
lemma runPreHooks_of_sweep_ok (pre : List (Except Unit Unit)) (nPost : Nat) (h : Heap)
    (p : Nat) (r : SweepResult) (hr : sweep pre nPost h p = Except.ok r) :
    runPreHooks pre = Except.ok () := by
  unfold sweep at hr
  cases hpre : runPreHooks pre with
  | error e => rw [hpre] at hr; cases hr
  | ok u => cases u; rfl

/-- Characterisation of a successful sweep: the surviving heap is the
alive-filtered heap, and every post-hook gets the number of entries
that failed liveness. -/
lemma sweep_ok_spec (pre : List (Except Unit Unit)) (nPost : Nat) (h : Heap) (p : Nat)
    (r : SweepResult) (hnd : (h.map Prod.fst).Nodup)
    (hr : sweep pre nPost h p = Except.ok r) :
    r.heap = h.filter (fun e => evaluate_liveness e.2 p) ∧
    r.postCalls =
      List.replicate nPost (h.filter (fun e => !evaluate_liveness e.2 p)).length := by
  unfold sweep at hr
  cases hpre : runPreHooks pre with
  | error e => rw [hpre] at hr; cases hr
  | ok u =>
      rw [hpre] at hr
      cases hr
      exact ⟨reclaim_dead_eq_filter p h hnd, by simp⟩

/-- Filtering by a predicate and then by its negation gives nothing. -/
lemma filter_not_filter_self (q : Nat × VGC_Object → Bool) (l : Heap) :
    (l.filter q).filter (fun e => !q e) = [] := by
  induction l with
  | nil => rfl
  | cons e t ih => cases hq : q e <;> simp [List.filter_cons, hq, ih]

/-- Updating the object stored under a key (keeping the key) makes a
lookup of that key see the updated object. -/
lemma heapFind_map_update (h : Heap) (id : Nat) (g : VGC_Object → VGC_Object) :
    heapFind (h.map (fun e => if e.1 == id then (e.1, g e.2) else e)) id =
      (heapFind h id).map g := by
  induction h with
  | nil => rfl
  | cons e t ih =>
      simp only [List.map_cons]
      by_cases he : e.1 = id
      · have hb : (e.1 == id) = true := by simpa using he
        rw [if_pos hb]
        unfold heapFind
        simp only [List.find?_cons, hb]
        rfl
      · have hb : (e.1 == id) = false := by simpa using he
        rw [if_neg (by simp [hb])]
        unfold heapFind
        simp only [List.find?_cons, hb]
        exact ih

/-- Looking up one key is unaffected by overwriting another key. -/
lemma heapFind_map_store_ne (h : Heap) (id id2 : Nat) (obj : VGC_Object)
    (hne : id2 ≠ id) :
    heapFind (h.map (fun e => if e.1 == id then (id, obj) else e)) id2 =
      heapFind h id2 := by
  induction h with
  | nil => rfl
  | cons e t ih =>
      simp only [List.map_cons]
      by_cases he : e.1 = id
      · have hb : (e.1 == id) = true := by simpa using he
        rw [if_pos hb]
        unfold heapFind
        have h1 : ((id : Nat) == id2) = false := by
          rw [beq_eq_false_iff_ne]
          exact fun hh => hne hh.symm
        have h2 : (e.1 == id2) = false := by
          rw [beq_eq_false_iff_ne, he]
          exact fun hh => hne hh.symm
        simp only [List.find?_cons, h1, h2]
        exact ih
      · have hb : (e.1 == id) = false := by simpa using he
        rw [if_neg (by simp [hb])]
        unfold heapFind
        by_cases he2 : e.1 = id2
        · have hb2 : (e.1 == id2) = true := by simpa using he2
          simp only [List.find?_cons, hb2]
        · have hb2 : (e.1 == id2) = false := by simpa using he2
          simp only [List.find?_cons, hb2]
          exact ih

/-- Looking up one key is unaffected by appending an entry for another
key. -/
lemma heapFind_append_single_ne (h : Heap) (id id2 : Nat) (obj : VGC_Object)
    (hne : id2 ≠ id) :
    heapFind (h ++ [(id, obj)]) id2 = heapFind h id2 := by
  have h1 : ((id : Nat) == id2) = false := by
    rw [beq_eq_false_iff_ne]
    exact fun hh => hne hh.symm
  induction h with
  | nil =>
      unfold heapFind
      rw [List.nil_append]
      simp only [List.find?_cons, h1, List.find?_nil]
  | cons e t ih =>
      rw [List.cons_append]
      unfold heapFind
      by_cases he : e.1 = id2
      · have hb : (e.1 == id2) = true := by simpa using he
        simp only [List.find?_cons, hb]
      · have hb : (e.1 == id2) = false := by simpa using he
        simp only [List.find?_cons, hb]
        exact ih

/-- Overwriting keeps the size of the map, inserting a fresh key grows it
by one. -/
lemma length_heapStore (h : Heap) (id : Nat) (obj : VGC_Object) :
    (heapStore h id obj).length =
      if heapContains h id then h.length else h.length + 1 := by
  unfold heapStore
  cases hc : heapContains h id <;> simp

/-- When a key occurs nowhere in the heap, the keyed overwrite touches
nothing and a filter for that key finds nothing. -/
lemma filter_key_map_store_nil (t : Heap) (id : Nat) (obj : VGC_Object)
    (hid : ¬ id ∈ t.map Prod.fst) :
    (t.map (fun e => if e.1 == id then (id, obj) else e)).filter
      (fun e => e.1 == id) = [] := by
  induction t with
  | nil => rfl
  | cons e t ih =>
      rw [List.map_cons, List.mem_cons] at hid
      push_neg at hid
      have he : (e.1 == id) = false := by
        rw [beq_eq_false_iff_ne]
        exact fun hh => hid.1 hh.symm
      simp only [List.map_cons]
      rw [if_neg (by simp [he]), List.filter_cons, if_neg (by simp [he])]
      exact ih hid.2

/-- Under unique keys, after overwriting a present key the entries
under that key are exactly the one new entry. -/
lemma filter_key_map_store (h : Heap) (id : Nat) (obj : VGC_Object) :
    (h.map Prod.fst).Nodup → heapContains h id = true →
    (h.map (fun e => if e.1 == id then (id, obj) else e)).filter
      (fun e => e.1 == id) = [(id, obj)] := by
  induction h with
  | nil => intro _ hc; cases hc
  | cons e t ih =>
      intro hnd hc
      rw [List.map_cons] at hnd
      obtain ⟨hni, hndt⟩ := List.nodup_cons.mp hnd
      simp only [List.map_cons]
      by_cases he : e.1 = id
      · have hb : (e.1 == id) = true := by simpa using he
        rw [if_pos hb, List.filter_cons, if_pos (by simp)]
        have hnt : ¬ id ∈ t.map Prod.fst := he ▸ hni
        rw [filter_key_map_store_nil t id obj hnt]
      · have hb : (e.1 == id) = false := by simpa using he
        rw [if_neg (by simp [hb]), List.filter_cons, if_neg (by simp [hb])]
        have hct : heapContains t id = true := by
          have := hc
          unfold heapContains at this ⊢
          rw [List.any_cons, hb] at this
          simpa using this
        exact ih hndt hct

/-- The overwrite case of heapStore, packaged for allocate. -/
lemma filter_heapStore_eq (h : Heap) (id : Nat) (obj : VGC_Object)
    (hnd : (h.map Prod.fst).Nodup) (hc : heapContains h id = true) :
    (heapStore h id obj).filter (fun e => e.1 == id) = [(id, obj)] := by
  rw [heapStore, if_pos hc]
  exact filter_key_map_store h id obj hnd hc

/-! Claims about the liveness evaluator -/

/-- Claim C1: for every descriptor with 3-bit state s, zone mask z and
every pending mask p, evaluate_liveness returns false when s = EXPIRED
(7); otherwise returns true when s = PERSIST (4); otherwise returns
true if and only if ((s AND z) OR (s AND p)) is nonzero or s = ACTIVE
(1). -/
theorem C1_evaluate_liveness_spec (d : VGC_Object) (p : Nat) (h3 : d.state < 8) :
    (d.state = 7 → evaluate_liveness d p = false) ∧
    (d.state ≠ 7 → d.state = 4 → evaluate_liveness d p = true) ∧
    (d.state ≠ 7 → d.state ≠ 4 →
      (evaluate_liveness d p = true ↔
        ((d.state &&& d.zone_mask) ||| (d.state &&& p)) ≠ 0 ∨ d.state = 1)) := by
  refine ⟨fun h7 => ?_, fun h7 h4 => ?_, fun h7 h4 => ?_⟩
  · simp [evaluate_liveness, EXPIRED, h7]
  · simp [evaluate_liveness, EXPIRED, PERSIST, h7, h4]
  · simp [evaluate_liveness, EXPIRED, PERSIST, ACTIVE, h7, h4, Nat.pos_iff_ne_zero]

/-- Witness for C1 at a concrete input: object 101 of the demo (GREEN
zone, ACTIVE state) is alive under pending mask 0 because of the
ACTIVE override. -/
theorem C1_evaluate_liveness_spec_witness :
    evaluate_liveness { id := 101, zone_mask := 2, state := 1 } 0 = true :=
  ((C1_evaluate_liveness_spec { id := 101, zone_mask := 2, state := 1 } 0
    (by decide)).2.2 (by decide) (by decide)).mpr (Or.inr rfl)

/-- Claim C7: for a descriptor whose state is a 3-bit value, bits of
the pending mask outside the low 3 never change the liveness verdict. -/
theorem C7_pending_mask_low_bits (d : VGC_Object) (p : Nat) (h3 : d.state < 8) :
    evaluate_liveness d p = evaluate_liveness d (p &&& 7) := by
  simp only [evaluate_liveness]
  rw [← land_mask3 d.state p h3]

/-- Witness for C7 at a concrete input: state DEMOTE (3) in the GREEN
zone with the wide pending mask 0b1010 behaves like mask 0b010. -/
theorem C7_pending_mask_low_bits_witness :
    evaluate_liveness { id := 1, zone_mask := 2, state := 3 } 10 =
      evaluate_liveness { id := 1, zone_mask := 2, state := 3 } (10 &&& 7) :=
  C7_pending_mask_low_bits { id := 1, zone_mask := 2, state := 3 } 10 (by decide)

/-- Claim C10: the liveness verdict never depends on the id of the
descriptor: two descriptors agreeing on state and zone_mask get the same
verdict under every pending mask. -/
theorem C10_liveness_id_independent (i1 i2 z s p : Nat) :
    evaluate_liveness { id := i1, zone_mask := z, state := s } p =
      evaluate_liveness { id := i2, zone_mask := z, state := s } p := rfl

/-! Claims about the sweep engine -/

/-- Claim C2: with unique heap keys and hooks that do not mutate the
heap, sweep(p) removes exactly the descriptors whose liveness
evaluation was false at candidate-selection time (the surviving heap
is the alive-filtered heap), and every descriptor remaining after the
sweep evaluates alive under p. -/
theorem C2_sweep_removes_exactly_dead (pre : List (Except Unit Unit)) (nPost : Nat)
    (h : Heap) (p : Nat) (r : SweepResult) (hnd : (h.map Prod.fst).Nodup)
    (hr : sweep pre nPost h p = Except.ok r) :
    r.heap = h.filter (fun e => evaluate_liveness e.2 p) ∧
    ∀ e ∈ r.heap, evaluate_liveness e.2 p = true := by
  have hspec := sweep_ok_spec pre nPost h p r hnd hr
  refine ⟨hspec.1, fun e he => ?_⟩
  rw [hspec.1] at he
  exact (List.mem_filter.mp he).2

/-- Witness for C2 at the demonstration heap: sweep(0) keeps exactly
the alive entries 101, 103, 105. -/
theorem C2_sweep_removes_exactly_dead_witness :
    ({ heap := demoAfter, postCalls := [2] } : SweepResult).heap =
      demoHeap.filter (fun e => evaluate_liveness e.2 0) :=
  (C2_sweep_removes_exactly_dead [] 1 demoHeap 0
    { heap := demoAfter, postCalls := [2] } (by decide) rfl).1

/-- Claim C3: on a successful sweep every registered post-sweep
callback is invoked, in registration order, with reclaimed_count equal
to the heap size before the sweep minus the heap size after. -/
theorem C3_post_hooks_reclaimed_count (pre : List (Except Unit Unit)) (nPost : Nat)
    (h : Heap) (p : Nat) (r : SweepResult) (hnd : (h.map Prod.fst).Nodup)
    (hr : sweep pre nPost h p = Except.ok r) :
    r.postCalls = List.replicate nPost (object_count h - object_count r.heap) := by
  have hspec := sweep_ok_spec pre nPost h p r hnd hr
  have hlen := length_filter_add_length_filter_not (fun e => evaluate_liveness e.2 p) h
  rw [hspec.2, hspec.1]
  unfold object_count
  congr 1
  omega

/-- Witness for C3 at the demonstration heap: the single post-hook
receives 2 = 5 - 3. -/
theorem C3_post_hooks_reclaimed_count_witness :
    ({ heap := demoAfter, postCalls := [2] } : SweepResult).postCalls =
      List.replicate 1 (object_count demoHeap - object_count demoAfter) :=
  C3_post_hooks_reclaimed_count [] 1 demoHeap 0
    { heap := demoAfter, postCalls := [2] } (by decide) rfl

/-- Claim C8: sweeping twice with the same pending mask (hooks not
mutating the heap) reclaims nothing the second time: the second sweep
succeeds, returns the heap of the first sweep unchanged, and passes 0
to every post-hook. -/
theorem C8_sweep_idempotent (pre : List (Except Unit Unit)) (nPost : Nat)
    (h : Heap) (p : Nat) (r : SweepResult) (hnd : (h.map Prod.fst).Nodup)
    (hr : sweep pre nPost h p = Except.ok r) :
    sweep pre nPost r.heap p =
      Except.ok { heap := r.heap, postCalls := List.replicate nPost 0 } := by
  have hpre := runPreHooks_of_sweep_ok pre nPost h p r hr
  have hspec := sweep_ok_spec pre nPost h p r hnd hr
  have hdead : r.heap.filter (fun e => !evaluate_liveness e.2 p) = [] := by
    rw [hspec.1]
    exact filter_not_filter_self (fun e => evaluate_liveness e.2 p) h
  unfold sweep
  rw [hpre, hdead]
  rfl

/-- Witness for C8: sweeping the post-sweep demonstration heap again
under mask 0 reclaims nothing and reports 0 to the post-hook. -/
theorem C8_sweep_idempotent_witness :
    sweep [] 1 demoAfter 0 =
      Except.ok { heap := demoAfter, postCalls := List.replicate 1 0 } :=
  C8_sweep_idempotent [] 1 demoHeap 0
    { heap := demoAfter, postCalls := [2] } (by decide) rfl

/-! Claim C4: hook failure during sweep -/

/-- Counterexample to claim C4: with a single failing pre-sweep hook
and a heap holding one EXPIRED (hence not-alive) descriptor, sweep
propagates the failure instead of reclaiming: it returns an error and
produces no reclamation at all, so a failing pre-hook does prevent the
not-alive descriptor from being removed. -/
theorem C4_counterexample :
    evaluate_liveness { id := 1, zone_mask := 1, state := 7 } 0 = false ∧
    sweep [Except.error ()] 1 [(1, { id := 1, zone_mask := 1, state := 7 })] 0 =
      Except.error () :=
  ⟨rfl, rfl⟩

/-- Amended claim C4: if a registered pre-sweep callback fails during
sweep(p), the failure propagates out of sweep as an error and the sweep
performs no candidate selection and no reclamation: the heap is not
mutated (sweep has no handler around its hook loop). -/
theorem C4_amended_prehook_failure_aborts (pre : List (Except Unit Unit)) (nPost : Nat)
    (h : Heap) (p : Nat) (e : Unit) (hfail : runPreHooks pre = Except.error e) :
    sweep pre nPost h p = Except.error e := by
  unfold sweep
  rw [hfail]

/-- Witness for the amended C4 at a concrete input: a failing pre-hook
aborts the sweep of the demo heap. -/
theorem C4_amended_prehook_failure_aborts_witness :
    sweep [Except.error ()] 1 demoHeap 0 = Except.error () :=
  C4_amended_prehook_failure_aborts [Except.error ()] 1 demoHeap 0 () rfl

/-! Claims about allocate and transition_state -/

/-- Claim C5: allocating an id that already exists (keys being unique)
emits the duplicate warning (and no error), overwrites the existing
entry, and leaves exactly one descriptor under that id, carrying the
zone and state of the most recent call. -/
theorem C5_duplicate_allocation (h : Heap) (id zone st : Nat)
    (hnd : (h.map Prod.fst).Nodup) (hc : heapContains h id = true) :
    (allocate h id zone st).2 = [Diag.warnDuplicate id] ∧
    (allocate h id zone st).1.filter (fun e => e.1 == id) =
      [(id, { id := id, zone_mask := zone, state := st })] := by
  constructor
  · simp [allocate, hc]
  · exact filter_heapStore_eq h id { id := id, zone_mask := zone, state := st } hnd hc

/-- Witness for C5 at a concrete input: re-allocating id 7 (RED, IDLE)
as (BLUE, PERSIST) warns and leaves the single overwritten entry. -/
theorem C5_duplicate_allocation_witness :
    (allocate [(7, { id := 7, zone_mask := 1, state := 0 })] 7 4 4).2 =
      [Diag.warnDuplicate 7] ∧
    (allocate [(7, { id := 7, zone_mask := 1, state := 0 })] 7 4 4).1.filter
      (fun e => e.1 == 7) = [(7, { id := 7, zone_mask := 4, state := 4 })] :=
  C5_duplicate_allocation [(7, { id := 7, zone_mask := 1, state := 0 })] 7 4 4
    (by decide) rfl

/-- Claim C6: transition_state on an absent id emits the NotFound
error diagnostic and returns the heap fully unchanged (and does not
fail fatally, being a total function); on a present id it emits no
diagnostic and sets the state of that descriptor to the new state. -/
theorem C6_transition_state_not_found (h : Heap) (id ns : Nat) :
    (heapContains h id = false → transition_state h id ns = (h, [Diag.errNotFound id])) ∧
    (heapContains h id = true →
      (transition_state h id ns).2 = [] ∧
      heapFind (transition_state h id ns).1 id =
        (heapFind h id).map (fun o => { o with state := ns })) := by
  constructor
  · intro hc
    simp [transition_state, hc]
  · intro hc
    refine ⟨by simp [transition_state, hc], ?_⟩
    simp only [transition_state, hc, if_true]
    exact heapFind_map_update h id (fun o => { o with state := ns })

/-- Witness for C6 at concrete inputs: transitioning absent id 3 only
reports NotFound, and transitioning present id 5 to state 2 updates
that descriptor. -/
theorem C6_transition_state_not_found_witness :
    transition_state [] 3 1 = ([], [Diag.errNotFound 3]) ∧
    heapFind (transition_state [(5, { id := 5, zone_mask := 1, state := 0 })] 5 2).1 5 =
      (heapFind [(5, { id := 5, zone_mask := 1, state := 0 })] 5).map
        (fun o => { o with state := 2 }) :=
  ⟨(C6_transition_state_not_found [] 3 1).1 rfl,
   ((C6_transition_state_not_found [(5, { id := 5, zone_mask := 1, state := 0 })] 5 2).2
     rfl).2⟩

/-- Claim C9: allocate leaves every descriptor under a different id
unchanged; object_count grows by exactly one when the id was absent
and is unchanged when it was present. -/
theorem C9_allocate_frame (h : Heap) (id zone st : Nat) :
    (∀ id2, id2 ≠ id → heapFind (allocate h id zone st).1 id2 = heapFind h id2) ∧
    (heapContains h id = true →
      object_count (allocate h id zone st).1 = object_count h) ∧
    (heapContains h id = false →
      object_count (allocate h id zone st).1 = object_count h + 1) := by
  refine ⟨fun id2 hne => ?_, fun hc => ?_, fun hc => ?_⟩
  · show heapFind (heapStore h id _) id2 = heapFind h id2
    unfold heapStore
    cases hc : heapContains h id
    · simp only [Bool.false_eq_true, if_false]
      exact heapFind_append_single_ne h id id2 _ hne
    · simp only [if_true]
      exact heapFind_map_store_ne h id id2 _ hne
  · show (heapStore h id _).length = h.length
    rw [length_heapStore, if_pos hc]
  · show (heapStore h id _).length = h.length + 1
    rw [length_heapStore, if_neg (by simp [hc])]

/-- Witness for C9 at a concrete input: allocating fresh id 2 next to
id 1 leaves the descriptor of id 1 alone and grows the count by one. -/
theorem C9_allocate_frame_witness :
    heapFind (allocate [(1, { id := 1, zone_mask := 1, state := 1 })] 2 2 1).1 1 =
      heapFind [(1, { id := 1, zone_mask := 1, state := 1 })] 1 ∧
    object_count (allocate [(1, { id := 1, zone_mask := 1, state := 1 })] 2 2 1).1 =
      object_count [(1, { id := 1, zone_mask := 1, state := 1 })] + 1 :=
  ⟨(C9_allocate_frame [(1, { id := 1, zone_mask := 1, state := 1 })] 2 2 1).1 1
     (by decide),
   (C9_allocate_frame [(1, { id := 1, zone_mask := 1, state := 1 })] 2 2 1).2.2 rfl⟩

end VGC
